import Mathlib

/-!
Shallow embedding of the static HTTP file server (`src/http.rs`, `src/main.rs`).

Strings are modelled as `List Char` (`Str`).  Rust's `char::is_whitespace`
covers all Unicode whitespace; the model restricts to the ASCII whitespace
characters, which are the only ones relevant to the HTTP line formats used
here.  The buffered input stream consumed by `read_line` is modelled as the
list of strings successive `read_line` calls return: each element is one line
including its terminator (or a final unterminated chunk at end of stream);
once the list is exhausted, `read_line` reads zero bytes and leaves the
buffer empty, which the model renders by the empty-list case.

Rust's `HashMap<String, String>` is modelled as an association list without
duplicate keys together with `hmInsert` (update-in-place on an existing key,
append otherwise — last write wins) and `hmGet` (first matching key).  A
`HashMap`'s iteration order is unspecified: it is neither the insertion order
nor a function of the map's contents.  A `Response`'s `headers` field below
therefore records one possible iteration sequence; every order-independent
property is stated through `hmGet`, and the order-sensitivity of the
serializer is analysed explicitly for the relevant claim.
-/

namespace HttpServer

abbrev Str := List Char

def str (s : String) : Str := s.toList

/-- ASCII restriction of Rust `char::is_whitespace`. -/
def isWS (c : Char) : Bool := c = ' ' || c = '\t' || c = '\n' || c = '\r'

/-- Worker for `splitWhitespace`: `acc` holds the current token reversed. -/
def splitWSAux : Str → Str → List Str
  | [], acc => if acc = [] then [] else [acc.reverse]
  | c :: cs, acc =>
    if isWS c then
      if acc = [] then splitWSAux cs []
      else acc.reverse :: splitWSAux cs []
    else splitWSAux cs (c :: acc)

/-- Rust `str::split_whitespace`: split on runs of whitespace, no empty tokens. -/
def splitWhitespace (s : Str) : List Str := splitWSAux s []

/-- Rust `str::split(":")`: all the parts between occurrences of `':'`,
empty parts included; the result is never empty. -/
def splitColon : Str → List Str
  | [] => [[]]
  | c :: cs =>
    if c = ':' then [] :: splitColon cs
    else
      match splitColon cs with
      | [] => [[c]]
      | r :: rs => (c :: r) :: rs

/-- Rust `str::trim` (ASCII whitespace, see `isWS`). -/
def trim (s : Str) : Str := ((s.dropWhile isWS).reverse.dropWhile isWS).reverse

/-- `HashMap<String, String>` contents, as an association list. -/
abbrev Headers := List (Str × Str)

/-- `HashMap::insert`: replace the value of an existing key, else add the
entry.  On the association list, a fresh key is appended at the end. -/
def hmInsert (m : Headers) (k v : Str) : Headers :=
  if m.any (fun p => p.1 == k) then
    m.map (fun p => if p.1 == k then (k, v) else p)
  else m ++ [(k, v)]

/-- `HashMap::get`. -/
def hmGet (m : Headers) (k : Str) : Option Str :=
  (m.find? (fun p => p.1 == k)).map (fun p => p.2)

/-- `enum Method { Get }` (src/http.rs). -/
inductive Method
  | get
deriving DecidableEq, Repr

/-- `impl TryFrom<&str> for Method` (src/http.rs): only `"GET"` converts. -/
def Method.tryFrom (s : Str) : Except Str Method :=
  if s = str "GET" then .ok .get else .error (str "unsupported method")

/-- `struct Request` (src/http.rs). -/
structure Request where
  method : Method
  path : Str
  headers : Headers
deriving DecidableEq, Repr

/-- The loop's break condition in `parse_request`:
`line_buffer.is_empty() || line_buffer == "\n" || line_buffer == "\r\n"`. -/
def isBlankLine (l : Str) : Bool := l == [] || l == ['\n'] || l == ['\r', '\n']

/-- The header loop of `parse_request` (src/http.rs lines 56–72).  `[]` is
end of stream: `read_line` reads zero bytes, the cleared buffer stays empty,
and the `is_empty` branch breaks out of the loop. -/
def parseHeaders : List Str → Headers → Except Str Headers
  | [], acc => .ok acc
  | l :: ls, acc =>
    if isBlankLine l then .ok acc
    else
      match splitColon l with
      | [] => .error (str "missing header name")
      | [_] => .error (str "missing header value")
      | k :: v :: _ => parseHeaders ls (hmInsert acc k (trim v))

/-- `parse_request` (src/http.rs lines 38–78) over the stream of lines. -/
def parse_request (lines : List Str) : Except Str Request :=
  let first : Str × List Str :=
    match lines with
    | [] => ([], [])
    | l :: ls => (l, ls)
  match splitWhitespace first.1 with
  | [] => .error (str "missing method")
  | m :: tokens =>
    match Method.tryFrom m with
    | .error e => .error e
    | .ok method =>
      match tokens with
      | [] => .error (str "missing path")
      | p :: _ =>
        (parseHeaders first.2 []).map fun hs =>
          { method := method, path := p, headers := hs }

/-- `enum Status` (src/http.rs). -/
inductive Status
  | notFound
  | ok
deriving DecidableEq, Repr

/-- `impl Display for Status`. -/
def Status.show : Status → Str
  | .notFound => str "404 Not Found"
  | .ok => str "200 OK"

/-- The `data: Box<dyn AsyncRead>` field of a `Response`: either an
in-memory cursor over a string's UTF-8 bytes (`from_html`) or an open file
(`from_file`), the latter carried as its byte contents. -/
inductive Body
  | mem (s : Str)
  | file (bytes : List Nat)
deriving DecidableEq, Repr

/-- UTF-8 byte length of a string (`String::into_bytes(..).len()`). -/
def utf8Len (s : Str) : Nat := (s.map Char.utf8Size).sum

/-- Byte length of a response body. -/
def Body.byteLen : Body → Nat
  | .mem s => utf8Len s
  | .file bs => bs.length

/-- `usize::to_string` / `u64::to_string`. -/
def natToStr (n : Nat) : Str := (Nat.repr n).toList

/-- `struct Response` (src/http.rs).  `headers` lists the entries of the
`HashMap` in its (unspecified) iteration order. -/
structure Response where
  status : Status
  headers : Headers
  data : Body
deriving DecidableEq, Repr

/-- `format!("{}: {}", k, v)` for one header entry. -/
def fmtHeader (p : Str × Str) : Str := p.1 ++ str ": " ++ p.2

/-- `Response::status_and_headers` (src/http.rs lines 124–133): header lines
joined with `"\r\n"`, wrapped in the status line and the terminating blank
line. -/
def Response.status_and_headers (r : Response) : Str :=
  let headers := List.intercalate (str "\r\n") (r.headers.map fmtHeader)
  str "HTTP/1.1 " ++ r.status.show ++ str "\r\n" ++ headers ++ str "\r\n\r\n"

/-- `Response::from_html` (src/http.rs lines 145–158).  The two entries are
listed in the source order of the `hashmap!` literal; nothing below depends
on that order. -/
def Response.from_html (status : Status) (data : Str) : Response :=
  { status := status
    headers := [(str "Content-Type", str "text/html"),
                (str "Content-Length", natToStr (utf8Len data))]
    data := .mem data }

/-- `Path::file_name` as a string: the component after the last `'/'`. -/
def fileName (p : Str) : Str := (p.reverse.takeWhile (fun c => c ≠ '/')).reverse

/-- `Path::extension` for ordinary file names: the part of the file name
after its last `'.'`, provided that dot exists and is not the leading
character (a name such as `".bashrc"` has no extension). -/
def extension (p : Str) : Option Str :=
  let f := fileName p
  let afterRev := f.reverse.takeWhile (fun c => c ≠ '.')
  if afterRev.length = f.length then none
  else if f.length = afterRev.length + 1 then none
  else some afterRev.reverse

/-- `mime_type` (src/http.rs lines 186–196). -/
def mime_type (p : Str) : Str :=
  match extension p with
  | some e =>
    if e = str "html" then str "text/html"
    else if e = str "css" then str "text/css"
    else if e = str "js" then str "text/javascript"
    else if e = str "png" then str "image/png"
    else if e = str "jpg" then str "image/jpeg"
    else if e = str "gif" then str "image/gif"
    else str "application/octet-stream"
  | none => str "application/octet-stream"

/-- `Response::from_file` (src/http.rs lines 160–171): the open file is
carried as its byte contents, so `file.metadata().len()` is their length.
The entries are listed in the source order of the `hashmap!` literal. -/
def Response.from_file (path : Str) (bytes : List Nat) : Response :=
  { status := .ok
    headers := [(str "Content-Length", natToStr bytes.length),
                (str "Content-Type", mime_type path)]
    data := .file bytes }

/-- The filesystem collaborator: `file? p = some bytes` when `p` names an
existing regular file (which then opens and reports metadata successfully)
with contents `bytes`, and `none` when the entry is absent or not a regular
file. -/
structure FileSystem where
  file? : Str → Option (List Nat)

/-- `PathBuf::join` on string paths: joining an absolute path replaces the
base, otherwise a separator is interposed. -/
def pathJoin (root rel : Str) : Str :=
  match rel with
  | '/' :: _ => rel
  | _ => root ++ '/' :: rel

/-- Outcome of `StaticFileHandler::handle`: `panic` is the
`strip_prefix('/').unwrap()` panic on a path with no leading slash. -/
inductive HandleResult
  | panic
  | ok (r : Response)
deriving DecidableEq, Repr

/-- `StaticFileHandler::handle` (src/main.rs lines 32–44).  `body404` is the
contents of `static/404.html`, embedded by `include_str!`. -/
def StaticFileHandler.handle (fs : FileSystem) (root : Str) (body404 : Str)
    (req : Request) : HandleResult :=
  match req.path with
  | '/' :: rel =>
    match fs.file? (pathJoin root rel) with
    | none => .ok (Response.from_html .notFound body404)
    | some bytes => .ok (Response.from_file (pathJoin root rel) bytes)
  | _ => .panic

/-- Outcome of `handle_req`: `panic` is the `.unwrap()` on a failed
`resp.write`, `ok b` is `Ok(b)` where `b` asks the caller to close. -/
inductive ReqOutcome
  | panic
  | ok (closeConn : Bool)
deriving DecidableEq, Repr

/-- `handle_req` (src/main.rs lines 149–167).  `resolveResult` stands for
`handler.handle(req).await`, `writeOk` for whether `resp.write` succeeds. -/
def handle_req (req : Request) (resolveResult : Except Str Response)
    (writeOk : Bool) : ReqOutcome :=
  let close_connection := hmGet req.headers (str "Connection") == some (str "close")
  match resolveResult with
  | .ok _resp => if writeOk then .ok close_connection else .panic
  | .error _e => .ok false

/-- Where one iteration of the `handle_client` loop leaves the connection:
back at the top of the loop awaiting the next request, out of the loop
(connection released), or unwound by a panic (task aborts, connection
released, nothing further written). -/
inductive StepOutcome
  | awaitingRequest
  | closed
  | panicked
deriving DecidableEq, Repr

/-- One iteration of the `handle_client` loop (src/main.rs lines 122–147),
shutdown not signalled: a parse error breaks out of the loop; otherwise
`handle_req` runs and its boolean decides break versus continue. -/
def handle_client_step (parseResult : Except Str Request)
    (resolveResult : Except Str Response) (writeOk : Bool) : StepOutcome :=
  match parseResult with
  | .error _ => .closed
  | .ok req =>
    match handle_req req resolveResult writeOk with
    | .panic => .panicked
    | .ok true => .closed
    | .ok false => .awaitingRequest

/-- Modelled from the spec (§4.2): the serializer's advertised header
format, "each header as `key: value` followed by CRLF, in sequence order". -/
def headerBlock : Headers → Str
  | [] => []
  | p :: rest => fmtHeader p ++ str "\r\n" ++ headerBlock rest

/-- The shape of one header line of a well-formed request:
`<key>: <value>\r\n`. -/
def headerLine (kv : Str × Str) : Str := kv.1 ++ str ": " ++ kv.2 ++ str "\r\n"

/-- A header pair that survives the parser verbatim: no `':'` in key or
value, and a value with no surrounding whitespace to trim. -/
def goodPair (kv : Str × Str) : Prop :=
  ':' ∉ kv.1 ∧ ':' ∉ kv.2 ∧
    kv.2.dropWhile isWS = kv.2 ∧ kv.2.reverse.dropWhile isWS = kv.2.reverse

theorem splitColon_ne_nil (s : Str) : splitColon s ≠ [] := by
  induction s with
  | nil => simp [splitColon]
  | cons c cs ih =>
    simp only [splitColon]
    split
    · simp
    · cases h : splitColon cs <;> simp

theorem splitColon_no_colon : ∀ (s : Str), ':' ∉ s → splitColon s = [s] := by
  intro s
  induction s with
  | nil => intro _; rfl
  | cons c cs ih =>
    intro h
    have hc : c ≠ ':' := fun e => h (e ▸ List.mem_cons_self c cs)
    have hcs : ':' ∉ cs := fun m => h (List.mem_cons_of_mem c m)
    simp [splitColon, hc, ih hcs]

theorem splitColon_append : ∀ (k s : Str), ':' ∉ k →
    splitColon (k ++ ':' :: s) = k :: splitColon s := by
  intro k s
  induction k with
  | nil => intro _; simp [splitColon]
  | cons c k' ih =>
    intro h
    have hc : c ≠ ':' := fun e => h (e ▸ List.mem_cons_self c k')
    have hk' : ':' ∉ k' := fun m => h (List.mem_cons_of_mem c m)
    simp [splitColon, hc, ih hk']

theorem isBlankLine_false_of_three_le (l : Str) (h : 3 ≤ l.length) :
    isBlankLine l = false := by
  simp only [isBlankLine, Bool.or_eq_false_iff, beq_eq_false_iff_ne, ne_eq]
  refine ⟨⟨?_, ?_⟩, ?_⟩ <;> rintro rfl <;> simp at h

theorem splitWSAux_append (p : Str) (hp : ∀ c ∈ p, isWS c = false) :
    ∀ s acc, splitWSAux (p ++ s) acc = splitWSAux s (p.reverse ++ acc) := by
  induction p with
  | nil => intro s acc; simp
  | cons c p' ih =>
    intro s acc
    have hc : isWS c = false := hp c (List.mem_cons_self c p')
    have hp' : ∀ x ∈ p', isWS x = false := fun x hx => hp x (List.mem_cons_of_mem c hx)
    simp only [List.cons_append, splitWSAux, hc, Bool.false_eq_true, if_false,
      List.append_eq]
    rw [ih hp' s (c :: acc)]
    simp [List.append_assoc]

theorem splitWSAux_ws_cons (c : Char) (s acc : Str) (hc : isWS c = true)
    (ha : acc ≠ []) :
    splitWSAux (c :: s) acc = acc.reverse :: splitWSAux s [] := by
  simp [splitWSAux, hc, ha]

theorem splitWhitespace_request_line (p : Str) (hp : p ≠ [])
    (hpw : ∀ c ∈ p, isWS c = false) :
    splitWhitespace (str "GET " ++ p ++ str " HTTP/1.1\r\n")
      = [str "GET", p, str "HTTP/1.1"] := by
  have e1 : str "GET " ++ p ++ str " HTTP/1.1\r\n"
      = str "GET" ++ (' ' :: (p ++ (' ' :: str "HTTP/1.1\r\n"))) := by
    rw [List.append_assoc]; rfl
  rw [splitWhitespace, e1, splitWSAux_append (str "GET") (by decide),
    splitWSAux_ws_cons ' ' _ _ rfl (by decide),
    splitWSAux_append p hpw,
    splitWSAux_ws_cons ' ' _ _ rfl (by simpa using hp)]
  have c1 : ((str "GET").reverse ++ ([] : Str)).reverse = str "GET" := by decide
  have c2 : splitWSAux (str "HTTP/1.1\r\n") [] = [str "HTTP/1.1"] := by decide
  rw [c1, c2]
  simp

theorem dropWhile_length_le (p : Char → Bool) :
    ∀ l : Str, (l.dropWhile p).length ≤ l.length := by
  intro l
  induction l with
  | nil => simp
  | cons a l ih =>
    rw [List.dropWhile_cons]
    split
    · simp only [List.length_cons]; omega
    · simp

theorem trim_space_value_crlf (v : Str) (h2 : v.dropWhile isWS = v)
    (h3 : v.reverse.dropWhile isWS = v.reverse) :
    trim (' ' :: (v ++ str "\r\n")) = v := by
  cases v with
  | nil => rfl
  | cons c v' =>
    have hc : isWS c = false := by
      by_contra hw
      have hw' : isWS c = true := by simpa using hw
      rw [List.dropWhile_cons_of_pos hw'] at h2
      have hlen := congrArg List.length h2
      have hle := dropWhile_length_le isWS v'
      simp only [List.length_cons] at hlen
      omega
    unfold trim
    rw [List.dropWhile_cons_of_pos (show isWS ' ' = true from rfl)]
    rw [show (c :: v') ++ str "\r\n" = c :: (v' ++ str "\r\n") from rfl]
    rw [List.dropWhile_cons_of_neg (by simp [hc])]
    rw [show c :: (v' ++ str "\r\n") = (c :: v') ++ str "\r\n" from rfl]
    rw [List.reverse_append]
    rw [show (str "\r\n").reverse = '\n' :: '\r' :: ([] : Str) from rfl]
    rw [show ('\n' :: '\r' :: ([] : Str)) ++ (c :: v').reverse
          = '\n' :: '\r' :: (c :: v').reverse from rfl]
    rw [List.dropWhile_cons_of_pos (show isWS '\n' = true from rfl),
      List.dropWhile_cons_of_pos (show isWS '\r' = true from rfl)]
    rw [h3, List.reverse_reverse]

theorem hmInsert_fresh (m : Headers) (k v : Str) (h : ∀ kv ∈ m, kv.1 ≠ k) :
    hmInsert m k v = m ++ [(k, v)] := by
  have ha : m.any (fun p => p.1 == k) = false := by
    rw [List.any_eq_false]
    intro p hp
    simpa using h p hp
  rw [hmInsert, if_neg (by simp [ha])]

theorem parseHeaders_ok (hs : List Str) :
    ∀ acc, (∀ l ∈ hs, isBlankLine l = false → 2 ≤ (splitColon l).length) →
    ∃ h, parseHeaders hs acc = .ok h := by
  induction hs with
  | nil => intro acc _; exact ⟨acc, rfl⟩
  | cons l ls ih =>
    intro acc hcond
    by_cases hb : isBlankLine l = true
    · exact ⟨acc, by simp [parseHeaders, hb]⟩
    · have hb' : isBlankLine l = false := by simpa using hb
      have hlen := hcond l (List.mem_cons_self l ls) hb'
      match hsc : splitColon l with
      | [] => exact absurd hsc (splitColon_ne_nil l)
      | [k] => rw [hsc] at hlen; simp at hlen
      | k :: v :: rest =>
        obtain ⟨h, hh⟩ := ih (hmInsert acc k (trim v))
          (fun x hx => hcond x (List.mem_cons_of_mem l hx))
        exact ⟨h, by rw [parseHeaders, if_neg (by simp [hb']), hsc]; exact hh⟩

theorem parse_request_eq (l : Str) (ls : List Str) (p : Str) (extra : List Str)
    (h : splitWhitespace l = str "GET" :: p :: extra) :
    parse_request (l :: ls) = (parseHeaders ls []).map fun hs =>
      { method := Method.get, path := p, headers := hs } := by
  unfold parse_request
  simp only [h, Method.tryFrom, if_pos rfl]
  rfl

theorem parseHeaders_cons_good (kv : Str × Str) (hkv : goodPair kv)
    (ls : List Str) (acc : Headers) :
    parseHeaders (headerLine kv :: ls) acc = parseHeaders ls (hmInsert acc kv.1 kv.2) := by
  obtain ⟨hk, hv, hd1, hd2⟩ := hkv
  have hshape : headerLine kv = kv.1 ++ ':' :: (' ' :: (kv.2 ++ str "\r\n")) := by
    unfold headerLine
    rw [List.append_assoc, List.append_assoc]
    rfl
  have hlen : 3 ≤ (headerLine kv).length := by
    rw [hshape]
    have hc2 : (str "\r\n").length = 2 := rfl
    simp only [List.length_append, List.length_cons, hc2]
    omega
  have hblank := isBlankLine_false_of_three_le _ hlen
  have hnc : ':' ∉ ' ' :: (kv.2 ++ str "\r\n") := by
    intro hmem
    rcases List.mem_cons.mp hmem with h | h
    · exact absurd h (by decide)
    · rcases List.mem_append.mp h with h | h
      · exact hv h
      · exact absurd h (by decide)
  have hsc : splitColon (headerLine kv) = [kv.1, ' ' :: (kv.2 ++ str "\r\n")] := by
    rw [hshape, splitColon_append _ _ hk, splitColon_no_colon _ hnc]
  rw [parseHeaders, if_neg (by simp [hblank]), hsc]
  show parseHeaders ls (hmInsert acc kv.1 (trim (' ' :: (kv.2 ++ str "\r\n"))))
      = parseHeaders ls (hmInsert acc kv.1 kv.2)
  rw [trim_space_value_crlf kv.2 hd1 hd2]

theorem parseHeaders_roundtrip (hs : List (Str × Str)) :
    ∀ acc, (∀ kv ∈ hs, goodPair kv) →
    (∀ kv ∈ hs, ∀ kv' ∈ acc, kv'.1 ≠ kv.1) →
    (hs.map Prod.fst).Nodup →
    parseHeaders (hs.map headerLine ++ [str "\r\n"]) acc = .ok (acc ++ hs) := by
  induction hs with
  | nil =>
    intro acc _ _ _
    simp [parseHeaders, show isBlankLine (str "\r\n") = true from rfl]
  | cons kv t ih =>
    intro acc hgood hfresh hnodup
    rw [List.map_cons, List.cons_append,
      parseHeaders_cons_good kv (hgood kv (List.mem_cons_self kv t)),
      hmInsert_fresh acc kv.1 kv.2 (hfresh kv (List.mem_cons_self kv t))]
    rw [List.map_cons, List.nodup_cons] at hnodup
    have hfresh' : ∀ kv2 ∈ t, ∀ kv' ∈ acc ++ [(kv.1, kv.2)], kv'.1 ≠ kv2.1 := by
      intro kv2 h2 kv' h'
      rcases List.mem_append.mp h' with h' | h'
      · exact hfresh kv2 (List.mem_cons_of_mem kv h2) kv' h'
      · have : kv' = (kv.1, kv.2) := by simpa using h'
        subst this
        intro heq
        exact hnodup.1 (heq ▸ List.mem_map_of_mem Prod.fst h2)
    rw [ih (acc ++ [(kv.1, kv.2)]) (fun x hx => hgood x (List.mem_cons_of_mem kv hx))
      hfresh' hnodup.2]
    simp

theorem intercalate_headerBlock : ∀ hs : Headers, hs ≠ [] →
    List.intercalate (str "\r\n") (hs.map fmtHeader) ++ str "\r\n\r\n"
      = headerBlock hs ++ str "\r\n" := by
  intro hs
  induction hs with
  | nil => intro h; exact absurd rfl h
  | cons x t ih =>
    intro _
    cases t with
    | nil =>
      simp only [List.map_cons, List.map_nil, headerBlock]
      rw [show List.intercalate (str "\r\n") [fmtHeader x] = fmtHeader x by
        simp [List.intercalate]]
      rw [show str "\r\n\r\n" = str "\r\n" ++ str "\r\n" from rfl]
      simp [List.append_assoc]
    | cons y t' =>
      simp only [List.map_cons] at ih ⊢
      rw [show List.intercalate (str "\r\n")
            (fmtHeader x :: fmtHeader y :: t'.map fmtHeader)
          = fmtHeader x ++ str "\r\n"
            ++ List.intercalate (str "\r\n") (fmtHeader y :: t'.map fmtHeader) by
        simp [List.intercalate, List.intersperse]]
      rw [headerBlock]
      rw [List.append_assoc, List.append_assoc, ih (by simp)]
      simp [List.append_assoc]

instance goodPair.decidable (kv : Str × Str) : Decidable (goodPair kv) := by
  unfold goodPair
  infer_instance

/-- C1 counterexample: the stream ends right after the `Host` line, before
any blank line terminating the header block, yet `parse_request` returns a
well-formed `Request` — `read_line` reads zero bytes at end of stream,
leaving the buffer empty, and the empty buffer takes the same break branch
as a blank line.  The claim that every such truncated input is a parse
failure is therefore false. -/
theorem parse_request_truncated_stream_succeeds :
    parse_request [str "GET /foo HTTP/1.1\r\n", str "Host: localhost"]
      = .ok { method := .get, path := str "/foo",
              headers := [(str "Host", str "localhost")] } := rfl

/-- C1 as amended: end of stream before the blank line is NOT a parse
failure once a request line with a `GET` method and a path token has been
read; provided every header line read so far contains a `':'` (or is a
terminator), `parse_request` succeeds with the headers accumulated up to
the truncation point.  Truncation can only fail inside the request line
(missing method or path, non-GET method) or at a header line lacking `':'`. -/
theorem parse_request_eof_before_blank_line (l p : Str) (extra : List Str)
    (hs : List Str)
    (hline : splitWhitespace l = str "GET" :: p :: extra)
    (hhs : ∀ x ∈ hs, isBlankLine x = false → 2 ≤ (splitColon x).length) :
    ∃ h, parse_request (l :: hs)
      = .ok { method := Method.get, path := p, headers := h } := by
  obtain ⟨h, hh⟩ := parseHeaders_ok hs [] hhs
  refine ⟨h, ?_⟩
  rw [parse_request_eq l hs p extra hline, hh]
  rfl

/-- C1 witness: the amended theorem applied to a concrete truncated
stream. -/
theorem parse_request_eof_before_blank_line_witness :
    ∃ h, parse_request [str "GET /a HTTP/1.1\r\n", str "Host: x"]
      = .ok { method := Method.get, path := str "/a", headers := h } :=
  parse_request_eof_before_blank_line (str "GET /a HTTP/1.1\r\n") (str "/a")
    [str "HTTP/1.1"] [str "Host: x"] (by decide) (by decide)

/-- C2 counterexample: when the resolver fails (`handler.handle` returns
`Err`), `handle_req` returns `Ok(false)`, so the `handle_client` loop does
NOT break: the supervisor goes back to awaiting the next request instead of
transitioning to `Closed` — even when the request carried
`Connection: close`.  The claim that a resolution failure closes the
connection is therefore false. -/
theorem resolve_failure_leaves_connection_open :
    handle_client_step
        (.ok { method := .get, path := str "/",
               headers := [(str "Connection", str "close")] })
        (.error (str "io error")) true = .awaitingRequest ∧
    StepOutcome.awaitingRequest ≠ StepOutcome.closed := ⟨rfl, by decide⟩

/-- C2 as amended: on a resolution failure the supervisor sends no response
and RETURNS TO `AwaitingRequest` (the connection stays open); only a
serialization failure terminates the loop, and it does so by panicking the
task (`resp.write(stream).await.unwrap()`), after which no further response
is attempted on the connection. -/
theorem supervisor_failure_outcomes :
    (∀ (req : Request) (e : Str) (writeOk : Bool),
      handle_client_step (.ok req) (.error e) writeOk = .awaitingRequest) ∧
    (∀ (req : Request) (resp : Response),
      handle_client_step (.ok req) (.ok resp) false = .panicked) :=
  ⟨fun _ _ _ => rfl, fun _ _ => rfl⟩

/-- C3 counterexample: for header line `Host: a:b`, the parser's
`split(":")` takes the piece between the first and second `':'` as the
value, so the parsed value is `"a"`, not the full substring `"a:b"` after
the first `':'` that the claim requires. -/
theorem header_value_cut_at_second_colon :
    parse_request [str "GET / HTTP/1.1\r\n", str "Host: a:b\r\n", str "\r\n"]
      = .ok { method := .get, path := str "/",
              headers := [(str "Host", str "a")] } ∧
    str "a" ≠ str "a:b" := ⟨rfl, by decide⟩

/-- C3 as amended: the key is the substring before the first `':'` and the
value is the substring between the first and second `':'` (trimmed), any
text after a second `':'` being discarded; for well-formed requests whose
header keys and values contain no `':'` (and whose values carry no
surrounding whitespace beyond the canonical `": "` separator), parsing
succeeds and the header map matches the input pairs exactly. -/
theorem wellformed_request_roundtrip (p : Str) (hs : List (Str × Str))
    (hp : p ≠ []) (hpw : ∀ c ∈ p, isWS c = false)
    (hgood : ∀ kv ∈ hs, goodPair kv)
    (hnodup : (hs.map Prod.fst).Nodup) :
    parse_request ((str "GET " ++ p ++ str " HTTP/1.1\r\n")
        :: (hs.map headerLine ++ [str "\r\n"]))
      = .ok { method := Method.get, path := p, headers := hs } := by
  rw [parse_request_eq _ _ p [str "HTTP/1.1"]
    (splitWhitespace_request_line p hp hpw)]
  rw [parseHeaders_roundtrip hs [] hgood (by simp) hnodup]
  rfl

/-- C3 witness: the amended round-trip theorem at the concrete request from
the source's own test. -/
theorem wellformed_request_roundtrip_witness :
    parse_request ((str "GET " ++ str "/foo" ++ str " HTTP/1.1\r\n")
        :: ([((str "Host"), (str "localhost"))].map headerLine ++ [str "\r\n"]))
      = .ok { method := Method.get, path := str "/foo",
              headers := [(str "Host", str "localhost")] } :=
  wellformed_request_roundtrip (str "/foo") [(str "Host", str "localhost")]
    (by decide) (by decide) (by decide) (by decide)

/-- C4 counterexample: the header line `:x` is not a terminator and splits
into key `""` and value `"x"`, so the parser returns a `Request` whose
header map contains the empty key — the invariant fails on the Request
side. -/
theorem parsed_header_with_empty_key :
    parse_request [str "GET / HTTP/1.1\r\n", str ":x\r\n", str "\r\n"]
      = .ok { method := .get, path := str "/", headers := [([], str "x")] } ∧
    hmGet [(([] : Str), str "x")] [] = some (str "x") := ⟨rfl, rfl⟩

/-- C4 as amended: the Response factories (`from_html`, `from_file`) only
ever insert the literal keys `Content-Type` and `Content-Length`, so a
Response's header map never contains an empty key; a Request's map can
(when a header line starts with `':'`). -/
theorem response_factory_keys_nonempty :
    (∀ (st : Status) (s : Str),
      ((Response.from_html st s).headers.all fun kv => !(kv.1 == [])) = true) ∧
    (∀ (q : Str) (bs : List Nat),
      ((Response.from_file q bs).headers.all fun kv => !(kv.1 == [])) = true) :=
  ⟨fun _ _ => rfl, fun _ _ => rfl⟩

/-- C5 counterexample: `Response.headers` is a `HashMap`, whose iteration
order is unspecified — it is not the insertion order and is not determined
by the map's contents.  Here two header sequences that are equal as maps
(same `get` result at every key, so both are possible iteration orders of
one and the same map built by the same insertions) serialize to different
byte sequences, refuting both "headers are written in insertion order" and
"serializing the same response always yields the same byte sequence". -/
theorem serializer_order_not_determined_by_map :
    (∀ k : Str, hmGet [(str "A", str "1"), (str "B", str "2")] k
        = hmGet [(str "B", str "2"), (str "A", str "1")] k) ∧
    Response.status_and_headers
        { status := .ok, headers := [(str "A", str "1"), (str "B", str "2")],
          data := .mem [] }
      ≠ Response.status_and_headers
        { status := .ok, headers := [(str "B", str "2"), (str "A", str "1")],
          data := .mem [] } := by
  constructor
  · intro k
    by_cases hA : (str "A" == k) = true
    · have h1 : str "A" = k := by simpa using hA
      subst h1
      decide
    · by_cases hB : (str "B" == k) = true
      · have h2 : str "B" = k := by simpa using hB
        subst h2
        decide
      · have hA' : (str "A" == k) = false := by simpa using hA
        have hB' : (str "B" == k) = false := by simpa using hB
        simp [hmGet, List.find?_cons, hA', hB']
  · decide

/-- C5 as amended: the serializer writes each header as `key: value`
followed by CRLF in the order of the header map's ITERATION sequence (not
the insertion order, which the `HashMap` does not record), and its output
is a deterministic function of the status and that sequence: for any
nonempty header sequence the serialized head equals the status line
followed by the spec-format header block and the terminating blank line. -/
theorem status_and_headers_insertion_sequence (s : Status) (hs : Headers)
    (d : Body) (h : hs ≠ []) :
    Response.status_and_headers { status := s, headers := hs, data := d }
      = str "HTTP/1.1 " ++ s.show ++ str "\r\n" ++ headerBlock hs ++ str "\r\n" := by
  unfold Response.status_and_headers
  simp only [List.append_assoc]
  rw [intercalate_headerBlock hs h]

/-- C5 witness: the amended serializer-format theorem at a concrete
response. -/
theorem status_and_headers_insertion_sequence_witness :
    Response.status_and_headers
        { status := .ok, headers := [(str "A", str "1")], data := .mem [] }
      = str "HTTP/1.1 " ++ Status.show .ok ++ str "\r\n"
          ++ headerBlock [(str "A", str "1")] ++ str "\r\n" :=
  status_and_headers_insertion_sequence .ok [(str "A", str "1")] (.mem [])
    (by decide)

/-- C6 counterexample: `GET foo HTTP/1.1` parses successfully into a
`Request` whose path `"foo"` does not start with `'/'` — the parser applies
no check whatsoever to the path token, so it does not guarantee the
resolver's precondition. -/
theorem parser_accepts_slashless_path :
    parse_request [str "GET foo HTTP/1.1\r\n", str "\r\n"]
      = .ok { method := .get, path := str "foo", headers := [] } ∧
    (str "foo").head? ≠ some '/' := ⟨rfl, by decide⟩

/-- C6 as amended: the parser accepts any whitespace-free second token as
the path, including tokens without a leading `'/'`; on such a request the
resolver's `strip_prefix('/').unwrap()` panics, so the resolver's contract
precondition is NOT always met by parser output. -/
theorem slashless_path_panics_resolver :
    parse_request [str "GET foo HTTP/1.1\r\n", str "\r\n"]
      = .ok { method := .get, path := str "foo", headers := [] } ∧
    (∀ (fs : FileSystem) (root body404 : Str),
      StaticFileHandler.handle fs root body404
        { method := .get, path := str "foo", headers := [] }
        = HandleResult.panic) :=
  ⟨rfl, fun _ _ _ => rfl⟩

/-- C7: after a successful exchange (resolution and serialization both
succeed), the supervisor closes the connection exactly when the request's
`Connection` header value equals `close` under case-sensitive exact
comparison; a request lacking that header or carrying any other value
leaves the loop awaiting a further request. -/
theorem connection_close_decision (req : Request) (resp : Response) :
    (handle_client_step (.ok req) (.ok resp) true = .closed
        ↔ hmGet req.headers (str "Connection") = some (str "close")) ∧
    (handle_client_step (.ok req) (.ok resp) true = .awaitingRequest
        ↔ hmGet req.headers (str "Connection") ≠ some (str "close")) := by
  unfold handle_client_step handle_req
  by_cases h : hmGet req.headers (str "Connection") = some (str "close")
  · have hb : (hmGet req.headers (str "Connection") == some (str "close")) = true := by
      simp [h]
    simp [h, hb]
  · have hb : (hmGet req.headers (str "Connection") == some (str "close")) = false := by
      simpa using h
    simp [h, hb]

/-- C8: resolving a path that names an existing regular file under the root
returns status `Ok`, a `Content-Length` equal to the file's byte size
(which is the exact byte length of the response body), and a `Content-Type`
given by the fixed extension table (`html`, `css`, `js`, `png`, `jpg`,
`gif`, with everything else — including a missing extension — mapped to
`application/octet-stream`). -/
theorem resolve_existing_file (fs : FileSystem) (root body404 : Str)
    (req : Request) (rel : Str) (bytes : List Nat)
    (hpath : req.path = '/' :: rel)
    (hfile : fs.file? (pathJoin root rel) = some bytes) :
    StaticFileHandler.handle fs root body404 req
        = .ok (Response.from_file (pathJoin root rel) bytes) ∧
    (Response.from_file (pathJoin root rel) bytes).status = Status.ok ∧
    hmGet (Response.from_file (pathJoin root rel) bytes).headers
        (str "Content-Length") = some (natToStr bytes.length) ∧
    (Response.from_file (pathJoin root rel) bytes).data.byteLen = bytes.length ∧
    hmGet (Response.from_file (pathJoin root rel) bytes).headers
        (str "Content-Type") = some (mime_type (pathJoin root rel)) ∧
    (∀ q : Str, extension q = some (str "html") → mime_type q = str "text/html") ∧
    (∀ q : Str, extension q = some (str "css") → mime_type q = str "text/css") ∧
    (∀ q : Str, extension q = some (str "js") → mime_type q = str "text/javascript") ∧
    (∀ q : Str, extension q = some (str "png") → mime_type q = str "image/png") ∧
    (∀ q : Str, extension q = some (str "jpg") → mime_type q = str "image/jpeg") ∧
    (∀ q : Str, extension q = some (str "gif") → mime_type q = str "image/gif") ∧
    (∀ (q e : Str), extension q = some e →
        e ∉ [str "html", str "css", str "js", str "png", str "jpg", str "gif"] →
        mime_type q = str "application/octet-stream") ∧
    (∀ q : Str, extension q = none → mime_type q = str "application/octet-stream") := by
  refine ⟨?_, rfl, rfl, rfl, rfl, ?_, ?_, ?_, ?_, ?_, ?_, ?_, ?_⟩
  · obtain ⟨m, path, hdr⟩ := req
    cases hpath
    show (match fs.file? (pathJoin root rel) with
      | none => HandleResult.ok (Response.from_html Status.notFound body404)
      | some bytes => HandleResult.ok (Response.from_file (pathJoin root rel) bytes))
      = HandleResult.ok (Response.from_file (pathJoin root rel) bytes)
    rw [hfile]
  · intro q hq; simp only [mime_type, hq]; decide
  · intro q hq; simp only [mime_type, hq]; decide
  · intro q hq; simp only [mime_type, hq]; decide
  · intro q hq; simp only [mime_type, hq]; decide
  · intro q hq; simp only [mime_type, hq]; decide
  · intro q hq; simp only [mime_type, hq]; decide
  · intro q e hq hne
    simp only [List.mem_cons, List.mem_singleton, not_or] at hne
    obtain ⟨n1, n2, n3, n4, n5, n6⟩ := hne
    simp only [mime_type, hq]
    simp [n1, n2, n3, n4, n5, n6]
  · intro q hq; simp only [mime_type, hq]

/-- C8 witness: the file-resolution theorem at a concrete one-file
filesystem. -/
theorem resolve_existing_file_witness :
    StaticFileHandler.handle
        ⟨fun q => if q = str "/r/i.html" then some [104, 105] else none⟩
        (str "/r") (str "nf")
        { method := .get, path := str "/i.html", headers := [] }
      = .ok (Response.from_file (pathJoin (str "/r") (str "i.html")) [104, 105]) :=
  (resolve_existing_file _ _ _ _ _ _ rfl (by decide)).1

/-- C9: resolving a path whose filesystem entry does not exist or is not a
regular file yields the `from_html` 404 response: status `NotFound`,
`Content-Type: text/html`, and a `Content-Length` equal to the byte length
of the fixed 404 body, which is also the exact byte length of the response
body. -/
theorem resolve_missing_file (fs : FileSystem) (root body404 : Str)
    (req : Request) (rel : Str)
    (hpath : req.path = '/' :: rel)
    (hmiss : fs.file? (pathJoin root rel) = none) :
    StaticFileHandler.handle fs root body404 req
        = .ok (Response.from_html .notFound body404) ∧
    (Response.from_html Status.notFound body404).status = Status.notFound ∧
    hmGet (Response.from_html Status.notFound body404).headers
        (str "Content-Type") = some (str "text/html") ∧
    hmGet (Response.from_html Status.notFound body404).headers
        (str "Content-Length") = some (natToStr (utf8Len body404)) ∧
    (Response.from_html Status.notFound body404).data.byteLen = utf8Len body404 := by
  refine ⟨?_, rfl, rfl, rfl, rfl⟩
  obtain ⟨m, path, hdr⟩ := req
  cases hpath
  show (match fs.file? (pathJoin root rel) with
    | none => HandleResult.ok (Response.from_html Status.notFound body404)
    | some bytes => HandleResult.ok (Response.from_file (pathJoin root rel) bytes))
    = HandleResult.ok (Response.from_html Status.notFound body404)
  rw [hmiss]

/-- C9 witness: the not-found theorem on the empty filesystem. -/
theorem resolve_missing_file_witness :
    StaticFileHandler.handle ⟨fun _ => none⟩ (str "/r") (str "nf")
        { method := .get, path := str "/x", headers := [] }
      = .ok (Response.from_html .notFound (str "nf")) :=
  (resolve_missing_file ⟨fun _ => none⟩ (str "/r") (str "nf")
    { method := .get, path := str "/x", headers := [] } (str "x") rfl rfl).1

/-- C10: the parser ignores every request-line token after the second —
whenever the line splits into `GET`, a path token, and any (possibly empty)
list of further tokens, parsing does not fail on account of those tokens
and the resulting path is exactly the second token. -/
theorem request_line_extra_tokens_ignored (l p : Str) (extra : List Str)
    (h : splitWhitespace l = str "GET" :: p :: extra) :
    parse_request [l, str "\r\n"]
      = .ok { method := Method.get, path := p, headers := [] } := by
  rw [parse_request_eq l [str "\r\n"] p extra h]
  rfl

/-- C10 witness: the extra-token theorem at a request line carrying two
junk tokens after the path. -/
theorem request_line_extra_tokens_ignored_witness :
    parse_request [str "GET /foo x y\r\n", str "\r\n"]
      = .ok { method := Method.get, path := str "/foo", headers := [] } :=
  request_line_extra_tokens_ignored (str "GET /foo x y\r\n") (str "/foo")
    [str "x", str "y"] (by decide)

end HttpServer
